import Mathlib

/-!
Shallow embedding of the walrus-cli transfer core (Go) in Lean 4.

Source files embedded here:
- `backend/s3client.go` : `matchPattern`, `shouldIncludeObject` and the
  `S3Object` / `S3TransferFilter` data model.
- `backend/client.go`   : the Walrus store-response decoding
  (`decodeStoreResponse`, `parseNewlyCreated`, `parseAlreadyCertified`,
  `resolveSize`, `walrusStoragePayload`), the retrieval retry loop
  (`RetrieveBlob`, `isRetryableError`) and `EstimateStorageCost`.
- `backend/transfer.go` : `EstimateWalrusCost`, `TransferResult`,
  `transferSingleFile`, `TransferSingle` and the `TransferBatch`
  worker-pool counter updates.
- the SimpleFs index file (package backend) : `LoadIndex`.

Go strings are embedded as `List Char` where the code inspects bytes
(pattern matching, substring search); the inputs relevant to the claims
are ASCII, where Go's byte indexing and character indexing agree.
Go `int`/`int64` values are embedded as `Int`; where overflow is
claim-relevant (the cost estimators) every arithmetic step is wrapped
with an explicit two's-complement reduction `wrap64`.  Network and file
system effects are passed in explicitly as outcome values.
-/

namespace WalrusCLI

set_option maxRecDepth 16000

/-! ### String helpers mirroring Go's strings package -/

/-- Go `strings.Contains(hay, needle)` on character lists: an empty needle
matches everywhere. -/
def hasSubstr : List Char → List Char → Bool
  | [], needle => needle.isEmpty
  | h :: t, needle => needle.isPrefixOf (h :: t) || hasSubstr t needle

/-- Go `strings.Index(hay, needle)`: index of the first occurrence of
`needle` in `hay`, `none` for Go's `-1`. -/
def strIndex : List Char → List Char → Option Nat
  | [], needle => if needle.isEmpty then some 0 else none
  | h :: t, needle =>
    if needle.isPrefixOf (h :: t) then some 0
    else (strIndex t needle).map (· + 1)

/-- Go `strings.Split(s, sep)` for a single-character separator: `n`
separators produce `n+1` (possibly empty) parts. -/
def splitOnChar (c : Char) : List Char → List (List Char)
  | [] => [[]]
  | h :: t =>
    if h = c then [] :: splitOnChar c t
    else
      match splitOnChar c t with
      | [] => [[h]]
      | x :: xs => (h :: x) :: xs

/-- Go `strings.ToLower` restricted to the ASCII range, which covers every
pattern the retry classifier compares against. -/
def toLowerStr (s : List Char) : List Char := s.map Char.toLower

/-! ### backend/s3client.go : glob matching and the transfer filter -/

/-- Loop body of the multi-wildcard branch of `matchPattern`: walk the
parts in order, locating each non-empty literal segment at or after the
cursor `ci`; the first segment must sit at the very start of the text.
Returns the final cursor on success and `none` where the Go loop returns
`false`. -/
def multiStar (text : List Char) : List (List Char) → Nat → Nat → Option Nat
  | [], _, ci => some ci
  | p :: rest, i, ci =>
    if p = [] then multiStar text rest (i + 1) ci
    else
      match strIndex (text.drop ci) p with
      | none => none
      | some idx =>
        if i = 0 && idx ≠ 0 then none
        else multiStar text rest (i + 1) (ci + idx + p.length)

/-- Embedding of `matchPattern(text, pattern)` from `backend/s3client.go`.
A pattern without `*` is compared for exact equality; one `*` gives a
prefix+suffix match; several `*` are matched by locating each literal
segment left to right without backtracking. -/
def matchPatternL (text pat : List Char) : Bool :=
  if hasSubstr pat ['*'] then
    let parts := splitOnChar '*' pat
    if parts.length = 1 then text = pat
    else if parts.length = 2 then
      let pre := parts.headI
      let suf := parts.getLastI
      if pre ≠ [] && !pre.isPrefixOf text then false
      else if suf ≠ [] && !suf.isSuffixOf text then false
      else true
    else
      match multiStar text parts 0 0 with
      | none => false
      | some _ =>
        let lastPart := parts.getLastI
        if lastPart ≠ [] && !lastPart.isSuffixOf text then false
        else true
  else text = pat

/-- String-level wrapper of `matchPattern`. -/
def matchPattern (text pat : String) : Bool :=
  matchPatternL text.toList pat.toList

/-- Embedding of `S3Object` (`backend/s3client.go`); `lastModified` is a
Unix timestamp, the `StorageClass` field is irrelevant to the filter and
omitted. -/
structure S3Object where
  key : String
  size : Int
  lastModified : Int
  etag : String
  deriving Repr, DecidableEq

/-- Embedding of `S3TransferFilter` (`backend/s3client.go`); the two
optional time bounds are Go nil-able pointers. -/
structure S3TransferFilter where
  prefixStr : String
  includeGlobs : List String
  excludeGlobs : List String
  minSize : Int
  maxSize : Int
  modifiedAfter : Option Int
  modifiedBefore : Option Int
  deriving Repr, DecidableEq

/-- Size and date checks of `shouldIncludeObject`, exactly the first four
early-return tests of the Go function (a zero `minSize`/`maxSize`
disables the bound; a nil time pointer disables the bound). -/
def sizeDateOk (obj : S3Object) (filter : S3TransferFilter) : Bool :=
  if filter.minSize > 0 && obj.size < filter.minSize then false
  else if filter.maxSize > 0 && obj.size > filter.maxSize then false
  else if filter.modifiedAfter.elim false (fun t => obj.lastModified < t) then false
  else if filter.modifiedBefore.elim false (fun t => obj.lastModified > t) then false
  else true

/-- Embedding of `shouldIncludeObject(obj, filter)` from
`backend/s3client.go`; a `none` filter is Go's nil pointer. -/
def shouldIncludeObject (obj : S3Object) : Option S3TransferFilter → Bool
  | none => true
  | some filter =>
    if !sizeDateOk obj filter then false
    else if filter.excludeGlobs.any (fun pat => matchPattern obj.key pat) then false
    else if filter.includeGlobs.length > 0 &&
        !filter.includeGlobs.any (fun pat => matchPattern obj.key pat) then false
    else true

/-! ### JSON values and Go-style struct decoding

The Walrus store responses are decoded with Go's `encoding/json`.  We
embed JSON documents as a first-order value type and reproduce the two
rules of Go's key matching that the decoding relies on: a struct field
takes the object key that matches its tag exactly, else the first key
that matches case-insensitively; a key that matches no field is ignored
and a missing key leaves the field at its zero value.  JSON numbers are
modelled as integers, which covers every numeric field of the response
schema (sizes, epochs, costs). -/

inductive Json where
  | null : Json
  | bool (b : Bool) : Json
  | num (n : Int) : Json
  | str (s : String) : Json
  | arr (elems : List Json) : Json
  | obj (fields : List (String × Json)) : Json
  deriving Repr

/-- Go `encoding/json` field lookup: exact tag match first, then ASCII
case-insensitive match (the claims' documents have no duplicate keys, so
taking the first occurrence is faithful). -/
def jsonLookup (fields : List (String × Json)) (tag : String) : Option Json :=
  match fields.find? (fun kv => kv.1 = tag) with
  | some kv => some kv.2
  | none =>
    (fields.find? (fun kv => toLowerStr kv.1.toList = toLowerStr tag.toList)).map Prod.snd

/-- Decoding of an integer struct field: a missing key or JSON null
leaves the Go zero value, a number is taken as is, anything else is an
unmarshal type error. -/
def getIntField (fields : List (String × Json)) (tag : String) : Except String Int :=
  match jsonLookup fields tag with
  | none => .ok 0
  | some Json.null => .ok 0
  | some (Json.num n) => .ok n
  | some _ => .error ("cannot unmarshal into int field " ++ tag)

/-- Decoding of a string struct field, with the Go zero value `""` for a
missing key or null. -/
def getStrField (fields : List (String × Json)) (tag : String) : Except String String :=
  match jsonLookup fields tag with
  | none => .ok ""
  | some Json.null => .ok ""
  | some (Json.str s) => .ok s
  | some _ => .error ("cannot unmarshal into string field " ++ tag)

/-- View of a JSON value as the field list of a struct target: null
leaves the struct zeroed, a non-object is a type error. -/
def asObjFields : Json → Except String (List (String × Json))
  | Json.obj fs => .ok fs
  | Json.null => .ok []
  | _ => .error "cannot unmarshal into struct"

/-- Embedding of `walrusStoragePayload` (`backend/client.go`): the
storage sub-object with its two accepted spellings for end epoch
(`endEpoch` / `storage_end_epoch`) and size (`storage_size` /
`storageSize`). -/
structure walrusStoragePayload where
  EndEpoch : Int
  EndEpochAlt : Int
  StorageSize : Int
  StorageSizeAlt : Int
  deriving Repr, DecidableEq

/-- Method `walrusStoragePayload.endEpoch()`. -/
def walrusStoragePayload.endEpoch (p : walrusStoragePayload) : Int :=
  if p.EndEpoch ≠ 0 then p.EndEpoch
  else if p.EndEpochAlt ≠ 0 then p.EndEpochAlt
  else 0

/-- Method `walrusStoragePayload.size()`. -/
def walrusStoragePayload.size (p : walrusStoragePayload) : Int :=
  if p.StorageSize ≠ 0 then p.StorageSize
  else if p.StorageSizeAlt ≠ 0 then p.StorageSizeAlt
  else 0

/-- Zero value of the storage payload struct. -/
def walrusStoragePayload.zero : walrusStoragePayload := ⟨0, 0, 0, 0⟩

/-- Unmarshal of `walrusStoragePayload` from a JSON value. -/
def decodeStoragePayload (j : Json) : Except String walrusStoragePayload := do
  let fs ← asObjFields j
  let e ← getIntField fs "endEpoch"
  let ea ← getIntField fs "storage_end_epoch"
  let s ← getIntField fs "storage_size"
  let sa ← getIntField fs "storageSize"
  .ok ⟨e, ea, s, sa⟩

/-- Decoding of a nested storage struct field (tag `storage`); a missing
key leaves the zero struct. -/
def getStorageField (fields : List (String × Json)) (tag : String) :
    Except String walrusStoragePayload :=
  match jsonLookup fields tag with
  | none => .ok walrusStoragePayload.zero
  | some j => decodeStoragePayload j

/-- Embedding of `walrusNewlyCreatedModern` (`backend/client.go`). -/
structure walrusNewlyCreatedModern where
  BlobID : String
  RegisteredEpoch : Int
  Storage : walrusStoragePayload
  Size : Int
  Cost : Int
  deriving Repr, DecidableEq

/-- Unmarshal of `walrusNewlyCreatedModern`, tags `blobId`,
`registeredEpoch`, `storage`, `size`, `cost`. -/
def decodeNewlyCreatedModern (j : Json) : Except String walrusNewlyCreatedModern := do
  let fs ← asObjFields j
  let b ← getStrField fs "blobId"
  let r ← getIntField fs "registeredEpoch"
  let st ← getStorageField fs "storage"
  let sz ← getIntField fs "size"
  let c ← getIntField fs "cost"
  .ok ⟨b, r, st, sz, c⟩

/-- Embedding of the inner `blobObject` of `walrusNewlyCreatedLegacy`. -/
structure walrusBlobObject where
  BlobID : String
  RegisteredEpoch : Int
  Storage : walrusStoragePayload
  Size : Int
  deriving Repr, DecidableEq

/-- Embedding of `walrusNewlyCreatedLegacy` (`backend/client.go`). -/
structure walrusNewlyCreatedLegacy where
  BlobObject : walrusBlobObject
  Cost : Int
  deriving Repr, DecidableEq

/-- Unmarshal of the legacy nested encoding, tags `blobObject` and
`cost`. -/
def decodeNewlyCreatedLegacy (j : Json) : Except String walrusNewlyCreatedLegacy := do
  let fs ← asObjFields j
  let inner ←
    match jsonLookup fs "blobObject" with
    | none => Except.ok (⟨"", 0, walrusStoragePayload.zero, 0⟩ : walrusBlobObject)
    | some ij => do
      let ifs ← asObjFields ij
      let b ← getStrField ifs "blobId"
      let r ← getIntField ifs "registeredEpoch"
      let st ← getStorageField ifs "storage"
      let sz ← getIntField ifs "size"
      Except.ok (⟨b, r, st, sz⟩ : walrusBlobObject)
  let c ← getIntField fs "cost"
  .ok ⟨inner, c⟩

/-- Embedding of `walrusAlreadyCertified` (`backend/client.go`). -/
structure walrusAlreadyCertified where
  BlobID : String
  RegisteredEpoch : Int
  EndEpoch : Int
  Storage : walrusStoragePayload
  Size : Int
  deriving Repr, DecidableEq

/-- Unmarshal of `walrusAlreadyCertified`, tags `blobId`,
`registeredEpoch`, `endEpoch`, `storage`, `size`. -/
def decodeAlreadyCertified (j : Json) : Except String walrusAlreadyCertified := do
  let fs ← asObjFields j
  let b ← getStrField fs "blobId"
  let r ← getIntField fs "registeredEpoch"
  let e ← getIntField fs "endEpoch"
  let st ← getStorageField fs "storage"
  let sz ← getIntField fs "size"
  .ok ⟨b, r, e, st, sz⟩

/-- Embedding of `StoreResponse` (`backend/client.go`); the two nullable
epoch fields are `Option Int`. -/
structure StoreResponse where
  BlobID : String
  EndEpoch : Option Int
  RegisteredEpoch : Option Int
  Cost : Int
  Size : Int
  AlreadyCertified : Bool
  SuiObjectID : String
  deriving Repr, DecidableEq

/-- Embedding of `resolveSize(fallback, candidates...)` from
`backend/client.go`: the first strictly positive candidate wins, the
fallback is used when none is positive. -/
def resolveSize (fallback : Int) : List Int → Int
  | [] => fallback
  | v :: rest => if v > 0 then v else resolveSize fallback rest

/-- Legacy branch shared by `parseNewlyCreated` and
`parseAlreadyCertified` (the Go code re-uses `walrusNewlyCreatedLegacy`
in both); `already` selects the `AlreadyCertified` flag of the result. -/
def parseLegacyBranch (raw : Json) (fallbackSize : Int) (already : Bool) :
    Except String StoreResponse :=
  match decodeNewlyCreatedLegacy raw with
  | .ok legacy =>
    if legacy.BlobObject.BlobID ≠ "" then
      .ok { BlobID := legacy.BlobObject.BlobID
            EndEpoch := some legacy.BlobObject.Storage.endEpoch
            RegisteredEpoch := none
            Cost := legacy.Cost
            Size := resolveSize fallbackSize
              [legacy.BlobObject.Storage.size, legacy.BlobObject.Size]
            AlreadyCertified := already
            SuiObjectID := "" }
    else .error "unable to decode payload"
  | .error e => .error e

/-- Embedding of `parseNewlyCreated(raw, fallbackSize)` from
`backend/client.go`: try the modern flat encoding, then the legacy
nested encoding; both require a non-empty `blobId`. -/
def parseNewlyCreated (raw : Json) (fallbackSize : Int) : Except String StoreResponse :=
  match decodeNewlyCreatedModern raw with
  | .ok modern =>
    if modern.BlobID ≠ "" then
      .ok { BlobID := modern.BlobID
            EndEpoch := some modern.Storage.endEpoch
            RegisteredEpoch := none
            Cost := modern.Cost
            Size := resolveSize fallbackSize [modern.Storage.size, modern.Size]
            AlreadyCertified := false
            SuiObjectID := "" }
    else parseLegacyBranch raw fallbackSize false
  | .error _ => parseLegacyBranch raw fallbackSize false

/-- Embedding of `parseAlreadyCertified(raw, fallbackSize)` from
`backend/client.go`: the modern decoding falls back from its own
`endEpoch` field to the storage payload's end epoch; the legacy branch
re-uses the nested `blobObject` encoding. -/
def parseAlreadyCertified (raw : Json) (fallbackSize : Int) : Except String StoreResponse :=
  match decodeAlreadyCertified raw with
  | .ok modern =>
    if modern.BlobID ≠ "" then
      .ok { BlobID := modern.BlobID
            EndEpoch := some (if modern.EndEpoch = 0 then modern.Storage.endEpoch
                              else modern.EndEpoch)
            RegisteredEpoch := none
            Cost := 0
            Size := resolveSize fallbackSize [modern.Storage.size, modern.Size]
            AlreadyCertified := true
            SuiObjectID := "" }
    else parseLegacyBranch raw fallbackSize true
  | .error _ => parseLegacyBranch raw fallbackSize true

/-- Embedding of `decodeStoreResponse(payload, fallbackSize)` from
`backend/client.go`.  The envelope keeps the raw sub-documents for the
two outcome keys; an envelope-level `cost` of zero is replaced by the
parsed branch's cost for `newlyCreated` and always overwrites the
branch's cost for `alreadyCertified`, exactly as in the Go code. -/
def decodeStoreResponse (payload : Json) (fallbackSize : Int) : Except String StoreResponse :=
  match payload with
  | Json.obj fs =>
    match getIntField fs "cost" with
    | .error _ => .error "decoding response"
    | .ok cost0 =>
      match jsonLookup fs "newlyCreated" with
      | some nc =>
        match parseNewlyCreated nc fallbackSize with
        | .ok parsed => .ok { parsed with Cost := if cost0 = 0 then parsed.Cost else cost0 }
        | .error _ => .error "unexpected newlyCreated payload"
      | none =>
        match jsonLookup fs "alreadyCertified" with
        | some ac =>
          match parseAlreadyCertified ac fallbackSize with
          | .ok parsed => .ok { parsed with Cost := cost0 }
          | .error _ => .error "unexpected alreadyCertified payload"
        | none => .error "unexpected response format"
  | Json.null => .error "unexpected response format"
  | _ => .error "decoding response"

/-- HTTP outcome of the single `PUT` performed by `StoreBlob`: a
transport error, or a status code with a response body (the body is the
JSON document the publisher returned). -/
inductive StoreHttpOutcome where
  | netErr (msg : String) : StoreHttpOutcome
  | resp (status : Nat) (body : Json) : StoreHttpOutcome
  deriving Repr

/-- Embedding of `StoreBlob(data, epochs)` from `backend/client.go`,
with the network abstracted as the outcome of the one HTTP request:
non-200/201 statuses fail, success decodes the body with the number of
bytes sent as the size fallback. -/
def StoreBlob (outcome : StoreHttpOutcome) (dataLen : Int) : Except String StoreResponse :=
  match outcome with
  | .netErr m => .error ("uploading blob: " ++ m)
  | .resp status body =>
    if status ≠ 200 && status ≠ 201 then
      .error ("upload failed with status " ++ toString status)
    else decodeStoreResponse body dataLen

/-! ### backend/client.go : retrieval with retry -/

/-- Embedding of `isRetryableError` (`backend/client.go`): a transport
error is retryable exactly when its lowercased message contains one of
the six transient patterns.  Go checks `err == nil` first; the only call
site passes a non-nil error, so the embedding takes the message. -/
def isRetryableError (msg : String) : Bool :=
  [ "connection refused", "connection reset", "timeout", "temporary failure",
    "no such host", "network is unreachable"
  ].any (fun pat => hasSubstr (toLowerStr msg.toList) pat.toList)

/-- Outcome of one HTTP `GET` in the retrieval loop: a transport error
or a status code with a body (bytes). -/
inductive FetchOutcome where
  | netErr (msg : String) : FetchOutcome
  | resp (status : Nat) (body : List Nat) : FetchOutcome
  deriving Repr, DecidableEq

/-- Observable trace of one `RetrieveBlob` call: the returned value, the
sleeps performed (in seconds, in order) and how many HTTP attempts were
made. -/
structure RetrieveTrace where
  result : Except String (List Nat)
  sleeps : List Nat
  attemptsMade : Nat
  deriving Repr

/-- Loop of `RetrieveBlob` (`backend/client.go`): at attempt index `i`
(zero-based, `remaining` loop iterations left, `remaining + i = 3`), a
sleep of `i * 2` seconds precedes every attempt but the first; transport
errors retry only when `isRetryableError` accepts them, statuses 429 and
503 retry, any other non-200 status and non-retryable error return at
once, and exhaustion reports the last retryable error. -/
def RetrieveLoop (attempts : Nat → FetchOutcome) :
    Nat → Nat → Option String → List Nat → RetrieveTrace
  | 0, i, lastErr, sleeps =>
    ⟨match lastErr with
      | some e => .error ("failed after 3 attempts: " ++ e)
      | none => .error "failed to retrieve blob", sleeps, i⟩
  | remaining + 1, i, _lastErr, sleeps =>
    let sleeps := if i > 0 then sleeps ++ [i * 2] else sleeps
    match attempts i with
    | .netErr msg =>
      if isRetryableError msg then
        RetrieveLoop attempts remaining (i + 1) (some msg) sleeps
      else ⟨.error ("retrieving blob: " ++ msg), sleeps, i + 1⟩
    | .resp status body =>
      if status = 429 || status = 503 then
        RetrieveLoop attempts remaining (i + 1)
          (some ("status " ++ toString status)) sleeps
      else if status ≠ 200 then
        ⟨.error ("retrieval failed with status " ++ toString status), sleeps, i + 1⟩
      else ⟨.ok body, sleeps, i + 1⟩

/-- Embedding of `RetrieveBlob(blobID)` with the network abstracted as
the outcome of each attempt: three loop iterations starting at attempt
0 with no recorded error and no sleeps. -/
def RetrieveBlob (attempts : Nat → FetchOutcome) : RetrieveTrace :=
  RetrieveLoop attempts 3 0 none []

/-- Classification used by the retry loop: an attempt outcome after
which the loop continues. -/
def isTransientOutcome : FetchOutcome → Bool
  | .netErr msg => isRetryableError msg
  | .resp status _ => status = 429 || status = 503

/-! ### Cost estimators

Go `int64` arithmetic wraps; every operation below is reduced with
`wrap64`, the two's-complement reduction into `[-2^63, 2^63)`.  Go's
integer division truncates toward zero (`Int.tdiv`). -/

/-- Two's-complement reduction of a mathematical integer into the signed
64-bit range, the behaviour of Go `int64` overflow. -/
def wrap64 (x : Int) : Int := (x + 2 ^ 63) % 2 ^ 64 - 2 ^ 63

/-- FROST amount computed by `EstimateWalrusCost` (`backend/transfer.go`):
a 5x erasure-coding expansion plus a fixed 64 MiB metadata overhead,
rounded up to whole MiB, at 11000 FROST (the 80%-subsidised rate) per
MiB per epoch. -/
def EstimateWalrusCostFROST (sizeBytes epochs : Int) : Int :=
  let encodedSizeBytes := wrap64 (wrap64 (sizeBytes * 5) + 64 * 1024 * 1024)
  let encodedSizeMB := Int.tdiv (wrap64 (encodedSizeBytes + 1048575)) 1048576
  let costPerMBPerEpoch : Int := Int.tdiv 55000 5
  wrap64 (wrap64 (encodedSizeMB * costPerMBPerEpoch) * epochs)

/-- Embedding of `EstimateWalrusCost`, which returns
`float64(totalFROST) / 1_000_000_000` WAL.  The quotient is modelled in
`ℚ`; for every fact proved below (sign, equality and inequality of
values whose FROST amounts are far below 2^53 or differ by far more than
one unit in the last place) the IEEE-754 double computed by Go has the
same sign and the same (in)equality, since such integers convert to
float64 exactly and division by the exactly representable 1e9 is
correctly rounded and monotone. -/
def EstimateWalrusCost (sizeBytes epochs : Int) : ℚ :=
  (EstimateWalrusCostFROST sizeBytes epochs : ℚ) / 1000000000

/-- Embedding of `EstimateStorageCost` (`backend/client.go`): for sizes
below 10 MiB the encoded size is replaced by the fixed 64 MiB metadata
overhead alone; otherwise the overhead is added to the 5x expansion.
The Go function's error result is always nil and is dropped. -/
def EstimateStorageCost (sizeBytes epochs : Int) : Int :=
  let fixedMetadataBytes : Int := 64 * 1024 * 1024
  let encodedSizeBytes :=
    if sizeBytes < 10 * 1024 * 1024 then fixedMetadataBytes
    else wrap64 (wrap64 (sizeBytes * 5) + fixedMetadataBytes)
  let encodedSizeMB := Int.tdiv (wrap64 (encodedSizeBytes + 1048575)) 1048576
  let baseCostPerMBPerEpoch : Int := 55000
  let subsidizedCostPerMBPerEpoch := Int.tdiv baseCostPerMBPerEpoch 5
  wrap64 (wrap64 (encodedSizeMB * subsidizedCostPerMBPerEpoch) * epochs)

/-! ### JSON text parsing for the persisted index

`LoadIndex` reads the backing document with `os.ReadFile` and decodes it
with `json.Unmarshal`; to state what happens on a malformed document we
parse document text into the `Json` value type with a fueled
recursive-descent parser (string escapes are not interpreted and numbers
are integers, which covers the persisted index format). -/

/-- Whitespace skipped between JSON tokens. -/
def skipWs (cs : List Char) : List Char :=
  cs.dropWhile (fun c => c = ' ' || c = '\t' || c = '\n' || c = '\r')

/-- Body of a JSON string after the opening quote: everything up to the
closing quote. -/
def parseStrBody : List Char → List Char → Option (String × List Char)
  | [], _ => none
  | c :: rest, acc =>
    if c = '"' then some (String.mk acc.reverse, rest)
    else parseStrBody rest (c :: acc)

/-- Decimal digits to a natural number. -/
def digitsToNat (ds : List Char) : Nat :=
  ds.foldl (fun a c => a * 10 + (c.toNat - 48)) 0

mutual

/-- Fueled JSON value grammar. -/
def parseValue : Nat → List Char → Option (Json × List Char)
  | 0, _ => none
  | fuel + 1, cs =>
    match skipWs cs with
    | [] => none
    | c :: rest =>
      if c = '"' then (parseStrBody rest []).map (fun p => (Json.str p.1, p.2))
      else if c = '[' then
        match skipWs rest with
        | ']' :: r2 => some (Json.arr [], r2)
        | _ => (parseElems fuel rest).map (fun p => (Json.arr p.1, p.2))
      else if c = '{' then
        match skipWs rest with
        | '}' :: r2 => some (Json.obj [], r2)
        | _ => (parseMembers fuel rest).map (fun p => (Json.obj p.1, p.2))
      else if c = 'n' then
        match rest with
        | 'u' :: 'l' :: 'l' :: r => some (Json.null, r)
        | _ => none
      else if c = 't' then
        match rest with
        | 'r' :: 'u' :: 'e' :: r => some (Json.bool true, r)
        | _ => none
      else if c = 'f' then
        match rest with
        | 'a' :: 'l' :: 's' :: 'e' :: r => some (Json.bool false, r)
        | _ => none
      else if c = '-' then
        let ds := rest.takeWhile Char.isDigit
        if ds.isEmpty then none
        else some (Json.num (-(digitsToNat ds : Int)), rest.drop ds.length)
      else if c.isDigit then
        let ds := (c :: rest).takeWhile Char.isDigit
        some (Json.num (digitsToNat ds : Int), (c :: rest).drop ds.length)
      else none

/-- Fueled array elements after the opening bracket. -/
def parseElems : Nat → List Char → Option (List Json × List Char)
  | 0, _ => none
  | fuel + 1, cs =>
    match parseValue fuel cs with
    | none => none
    | some (v, r) =>
      match skipWs r with
      | ',' :: r2 => (parseElems fuel r2).map (fun p => (v :: p.1, p.2))
      | ']' :: r2 => some ([v], r2)
      | _ => none

/-- Fueled object members after the opening brace. -/
def parseMembers : Nat → List Char → Option (List (String × Json) × List Char)
  | 0, _ => none
  | fuel + 1, cs =>
    match skipWs cs with
    | '"' :: r =>
      match parseStrBody r [] with
      | none => none
      | some (k, r2) =>
        match skipWs r2 with
        | ':' :: r3 =>
          match parseValue fuel r3 with
          | none => none
          | some (v, r4) =>
            match skipWs r4 with
            | ',' :: r5 => (parseMembers fuel r5).map (fun p => ((k, v) :: p.1, p.2))
            | '}' :: r5 => some ([(k, v)], r5)
            | _ => none
        | _ => none
    | _ => none

end

/-- Parse of a whole JSON document: one value followed only by
whitespace.  The fuel is ample for any document of the given length. -/
def parseJson (s : String) : Option Json :=
  match parseValue (2 * s.length + 2) s.toList with
  | some (j, rest) => if (skipWs rest).isEmpty then some j else none
  | none => none

/-! ### SimpleFs local index -/

/-- Embedding of `SimpleFileEntry`: the per-name index record.  The
modification time is kept as its serialized text; its calendar parsing
is not claim-relevant. -/
structure SimpleFileEntry where
  BlobID : String
  Size : Int
  ModTime : String
  ExpiryEpoch : Int
  deriving Repr, DecidableEq

/-- Embedding of `SimpleFileIndex`: the Go `map[string]*SimpleFileEntry`
as an association list keyed by display name. -/
structure SimpleFileIndex where
  Files : List (String × SimpleFileEntry)
  deriving Repr, DecidableEq

/-- Fresh empty index, as built by `NewSimpleFs` and by the
missing-document branch of `LoadIndex`. -/
def emptyIndex : SimpleFileIndex := ⟨[]⟩

/-- Unmarshal of one index entry, tags `blob_id`, `size`, `mod_time`,
`expiry_epoch`. -/
def decodeSimpleEntry (j : Json) : Except String SimpleFileEntry := do
  let fs ← asObjFields j
  let b ← getStrField fs "blob_id"
  let s ← getIntField fs "size"
  let m ← getStrField fs "mod_time"
  let e ← getIntField fs "expiry_epoch"
  .ok ⟨b, s, m, e⟩

/-- Unmarshal of the whole index document into the previously loaded
index (Go decodes into the existing struct, so an absent `files` key or
a null document leaves the prior entries). -/
def decodeIndexDoc (prev : SimpleFileIndex) : Json → Except String SimpleFileIndex
  | Json.null => .ok prev
  | Json.obj fs =>
    match jsonLookup fs "files" with
    | none => .ok prev
    | some Json.null => .ok ⟨[]⟩
    | some (Json.obj entries) =>
      (entries.mapM (fun kv => (decodeSimpleEntry kv.2).map (fun e => (kv.1, e)))).map
        SimpleFileIndex.mk
    | some _ => .error "cannot unmarshal files"
  | _ => .error "cannot unmarshal index document"

/-- Outcome of `os.ReadFile` on the backing document: the file is
absent, some other I/O error occurred, or the raw text was read. -/
inductive ReadResult where
  | notExist : ReadResult
  | readErr (msg : String) : ReadResult
  | ok (data : String) : ReadResult
  deriving Repr, DecidableEq

/-- Embedding of `SimpleFs.LoadIndex`: a missing document installs a
fresh empty index and succeeds; any other read error is returned; a
document that reads is decoded with `json.Unmarshal`, whose error (for
malformed text) is returned to the caller, leaving the backing file
untouched (the function performs no writes). -/
def LoadIndex (prev : SimpleFileIndex) (read : ReadResult) : Except String SimpleFileIndex :=
  match read with
  | .notExist => .ok emptyIndex
  | .readErr msg => .error msg
  | .ok data =>
    match parseJson data with
    | none => .error "invalid JSON document"
    | some j => decodeIndexDoc prev j

/-! ### backend/transfer.go : single-item transfer and the batch drain -/

/-- Embedding of `EncryptionSettings` (`backend/transfer.go`). -/
structure EncryptionSettings where
  Enabled : Bool
  Threshold : Int
  PolicyID : String
  deriving Repr, DecidableEq

/-- Embedding of `TransferJob` (`backend/transfer.go`); the nil-able
settings pointer is an `Option`. -/
structure TransferJob where
  Bucket : String
  Key : String
  Size : Int
  TargetName : String
  Epochs : Int
  EncryptionConfig : Option EncryptionSettings
  deriving Repr, DecidableEq

/-- Embedding of `TransferResult` (`backend/transfer.go`); the upload
wall-clock time is not claim-relevant and omitted, the error is the
wrapped message. -/
structure TransferResult where
  SourceKey : String
  TargetName : String
  BlobID : String
  Size : Int
  Success : Bool
  Error : Option String
  EstimatedCost : ℚ
  ExpiryEpoch : Option Int
  RegisteredEpoch : Option Int
  SuiObjectID : String
  deriving Repr, DecidableEq

/-- Environment of one `transferSingleFile` call: the S3 download
outcome (body bytes and the head content length) and the HTTP outcome of
the Walrus store request. -/
structure TransferEnv where
  download : Except String (List Nat × Int)
  store : StoreHttpOutcome

/-- Embedding of `transferSingleFile` (`backend/transfer.go`).  The
in-memory buffering below 100 MiB and the progress-bar update do not
change the bytes or the result and are dropped; the best-effort index
write is modelled separately.  The `.sealed` rename applies to the job's
target name after the result struct was already populated, so the
result keeps the original name, as in the Go code. -/
def transferSingleFile (env : TransferEnv) (job : TransferJob) : TransferResult :=
  let result : TransferResult :=
    { SourceKey := job.Key, TargetName := job.TargetName, BlobID := ""
      Size := job.Size, Success := false, Error := none
      EstimatedCost := EstimateWalrusCost job.Size job.Epochs
      ExpiryEpoch := none, RegisteredEpoch := none, SuiObjectID := "" }
  match env.download with
  | .error e => { result with Error := some ("failed to download from S3: " ++ e) }
  | .ok (data, _headSize) =>
    match StoreBlob env.store (data.length : Int) with
    | .error e => { result with Error := some ("failed to upload to Walrus: " ++ e) }
    | .ok uploadResp =>
      { result with
          BlobID := uploadResp.BlobID
          Success := true
          ExpiryEpoch := uploadResp.EndEpoch
          RegisteredEpoch := uploadResp.RegisteredEpoch
          SuiObjectID := uploadResp.SuiObjectID }

/-- Embedding of Go `path.Base`, used to derive a job's target name from
its source key. -/
def pathBase (s : String) : String :=
  if s = "" then "."
  else
    let cs := (s.toList.reverse.dropWhile (fun c => c = '/')).reverse
    if cs = [] then "/"
    else String.mk ((cs.reverse.takeWhile (fun c => c ≠ '/')).reverse)

/-- Environment of one `TransferSingle` call: the metadata probe and the
per-file transfer environment. -/
structure SingleEnv where
  metadata : Except String S3Object
  transfer : TransferEnv

/-- Embedding of `TransferSingle` (`backend/transfer.go`): a metadata
failure aborts; in dry-run mode a successful result with only the
estimated cost is fabricated without any network transfer; otherwise the
single-file transfer runs. -/
def TransferSingle (env : SingleEnv) (dryRun : Bool) (key : String) (epochs : Int) :
    Except String TransferResult :=
  match env.metadata with
  | .error e => .error e
  | .ok obj =>
    let job : TransferJob :=
      { Bucket := "", Key := key, Size := obj.size, TargetName := pathBase key
        Epochs := epochs, EncryptionConfig := none }
    if dryRun then
      .ok { SourceKey := key, TargetName := job.TargetName, BlobID := ""
            Size := obj.size, Success := true, Error := none
            EstimatedCost := EstimateWalrusCost obj.size epochs
            ExpiryEpoch := none, RegisteredEpoch := none, SuiObjectID := "" }
    else .ok (transferSingleFile env.transfer job)

/-- Shared progress state of `TransferBatch` after some set of jobs has
completed: the two atomic counters, the atomic byte counter and the
mutex-guarded results list. -/
structure BatchCounters where
  ProcessedFiles : Int
  FailedFiles : Int
  ProcessedBytes : Int
  Results : List TransferResult
  deriving Repr, DecidableEq

/-- One worker-loop iteration of `TransferBatch` (`backend/transfer.go`):
run the single-file transfer, increment the processed counter, add the
job's size to the byte counter on success or increment the failed
counter on failure, and append the result under the mutex. -/
def batchStep (p : BatchCounters) (je : TransferJob × TransferEnv) : BatchCounters :=
  let result := transferSingleFile je.2 je.1
  { ProcessedFiles := p.ProcessedFiles + 1
    FailedFiles := if result.Success then p.FailedFiles else p.FailedFiles + 1
    ProcessedBytes := if result.Success then p.ProcessedBytes + je.1.Size else p.ProcessedBytes
    Results := p.Results ++ [result] }

/-- State of the shared progress after `TransferBatch` drains, given the
jobs in the order their updates were applied.  Each job's three updates
are applied together here; the counters are sums and the list length a
count, so any interleaving of the per-job atomic updates yields the same
drained totals. -/
def drainBatch (completed : List (TransferJob × TransferEnv)) : BatchCounters :=
  completed.foldl batchStep ⟨0, 0, 0, []⟩

/-! ### Helper lemmas -/

/-- Both encodings accepted by the legacy branch require a non-empty
blob identifier. -/
theorem parseLegacyBranch_ok_blobID (raw : Json) (fb : Int) (a : Bool) (r : StoreResponse)
    (h : parseLegacyBranch raw fb a = .ok r) : r.BlobID ≠ "" := by
  unfold parseLegacyBranch at h
  cases hd : decodeNewlyCreatedLegacy raw with
  | error e => rw [hd] at h; exact absurd h (by simp)
  | ok legacy =>
    rw [hd] at h
    dsimp only at h
    by_cases hb : legacy.BlobObject.BlobID = ""
    · rw [if_neg (by simp [hb])] at h
      exact absurd h (by simp)
    · rw [if_pos hb] at h
      cases h
      exact hb

/-- A successful `parseNewlyCreated` yields a non-empty blob
identifier. -/
theorem parseNewlyCreated_ok_blobID (raw : Json) (fb : Int) (r : StoreResponse)
    (h : parseNewlyCreated raw fb = .ok r) : r.BlobID ≠ "" := by
  unfold parseNewlyCreated at h
  cases hd : decodeNewlyCreatedModern raw with
  | error e => rw [hd] at h; exact parseLegacyBranch_ok_blobID raw fb false r h
  | ok modern =>
    rw [hd] at h
    dsimp only at h
    by_cases hb : modern.BlobID = ""
    · rw [if_neg (by simp [hb])] at h
      exact parseLegacyBranch_ok_blobID raw fb false r h
    · rw [if_pos hb] at h
      cases h
      exact hb

/-- A successful `parseAlreadyCertified` yields a non-empty blob
identifier. -/
theorem parseAlreadyCertified_ok_blobID (raw : Json) (fb : Int) (r : StoreResponse)
    (h : parseAlreadyCertified raw fb = .ok r) : r.BlobID ≠ "" := by
  unfold parseAlreadyCertified at h
  cases hd : decodeAlreadyCertified raw with
  | error e => rw [hd] at h; exact parseLegacyBranch_ok_blobID raw fb true r h
  | ok modern =>
    rw [hd] at h
    dsimp only at h
    by_cases hb : modern.BlobID = ""
    · rw [if_neg (by simp [hb])] at h
      exact parseLegacyBranch_ok_blobID raw fb true r h
    · rw [if_pos hb] at h
      cases h
      exact hb

/-- Every response accepted by `decodeStoreResponse` carries a non-empty
blob identifier: both outcome branches delegate to parse functions that
require one. -/
theorem decodeStoreResponse_ok_blobID (payload : Json) (fb : Int) (r : StoreResponse)
    (h : decodeStoreResponse payload fb = .ok r) : r.BlobID ≠ "" := by
  unfold decodeStoreResponse at h
  cases payload with
  | obj fs =>
    dsimp only at h
    cases hc : getIntField fs "cost" with
    | error e => rw [hc] at h; exact absurd h (by simp)
    | ok cost0 =>
      rw [hc] at h
      dsimp only at h
      cases hn : jsonLookup fs "newlyCreated" with
      | some nc =>
        rw [hn] at h
        dsimp only at h
        cases hp : parseNewlyCreated nc fb with
        | ok parsed =>
          rw [hp] at h
          cases h
          simpa using parseNewlyCreated_ok_blobID nc fb parsed hp
        | error e => rw [hp] at h; exact absurd h (by simp)
      | none =>
        rw [hn] at h
        dsimp only at h
        cases ha : jsonLookup fs "alreadyCertified" with
        | some ac =>
          rw [ha] at h
          dsimp only at h
          cases hp : parseAlreadyCertified ac fb with
          | ok parsed =>
            rw [hp] at h
            cases h
            simpa using parseAlreadyCertified_ok_blobID ac fb parsed hp
          | error e => rw [hp] at h; exact absurd h (by simp)
        | none => rw [ha] at h; exact absurd h (by simp)
  | null => exact absurd h (by simp [decodeStoreResponse])
  | bool b => exact absurd h (by simp [decodeStoreResponse])
  | num n => exact absurd h (by simp [decodeStoreResponse])
  | str s => exact absurd h (by simp [decodeStoreResponse])
  | arr xs => exact absurd h (by simp [decodeStoreResponse])

/-- `StoreBlob` only succeeds with a decoded response, hence with a
non-empty blob identifier. -/
theorem StoreBlob_ok_blobID (outcome : StoreHttpOutcome) (dataLen : Int) (r : StoreResponse)
    (h : StoreBlob outcome dataLen = .ok r) : r.BlobID ≠ "" := by
  unfold StoreBlob at h
  cases outcome with
  | netErr m => exact absurd h (by simp)
  | resp status body =>
    dsimp only at h
    by_cases hs : (status ≠ 200 && status ≠ 201) = true
    · rw [if_pos hs] at h
      exact absurd h (by simp)
    · rw [if_neg hs] at h
      exact decodeStoreResponse_ok_blobID body dataLen r h

/-- Any result of `transferSingleFile` with the success flag set carries
the blob identifier of a decoded store response, which is non-empty. -/
theorem transferSingleFile_success_blobID (env : TransferEnv) (job : TransferJob)
    (h : (transferSingleFile env job).Success = true) :
    (transferSingleFile env job).BlobID ≠ "" := by
  obtain ⟨d, st⟩ := env
  cases d with
  | error e => simp [transferSingleFile] at h
  | ok p =>
    obtain ⟨data, hs⟩ := p
    dsimp only [transferSingleFile] at h ⊢
    cases hb : StoreBlob st (data.length : Int) with
    | error e => rw [hb] at h; simp at h
    | ok resp =>
      dsimp only at h ⊢
      exact StoreBlob_ok_blobID st (data.length : Int) resp hb

/-! ### Concrete inputs for the C1 claim -/

/-- Publisher response body with a modern `newlyCreated` outcome. -/
def c1StoreBody : Json :=
  Json.obj [("newlyCreated", Json.obj
    [("blobId", Json.str "Bx"),
     ("storage", Json.obj [("endEpoch", Json.num 42)]),
     ("size", Json.num 2)])]

/-- Environment of a fully successful single-file transfer. -/
def c1SuccessEnv : TransferEnv :=
  { download := .ok ([7, 8], 2), store := .resp 200 c1StoreBody }

/-- A small job for the successful transfer. -/
def c1Job : TransferJob :=
  { Bucket := "b", Key := "data/a.csv", Size := 2, TargetName := "a.csv"
    Epochs := 5, EncryptionConfig := none }

/-- Environment whose metadata probe succeeds; the transfer legs are
never reached in dry-run mode. -/
def c1DryEnv : SingleEnv :=
  { metadata := .ok { key := "data/a.csv", size := 1024, lastModified := 0, etag := "" }
    transfer := { download := .error "not reached", store := .netErr "not reached" } }

/-- C1 (amended): every TransferResult produced with `success = true` by
a batch worker or by the non-dry-run single-item transfer — both run
`transferSingleFile` — has a non-empty blob identifier; the dry-run
path is excluded, since it fabricates a successful result with an empty
identifier. -/
theorem c1_success_implies_nonempty_blobID :
    (∀ (env : TransferEnv) (job : TransferJob),
      (transferSingleFile env job).Success = true →
      (transferSingleFile env job).BlobID ≠ "") ∧
    (∀ (env : SingleEnv) (key : String) (epochs : Int) (r : TransferResult),
      TransferSingle env false key epochs = .ok r →
      r.Success = true → r.BlobID ≠ "") := by
  refine ⟨transferSingleFile_success_blobID, ?_⟩
  intro env key epochs r h hs
  unfold TransferSingle at h
  cases hm : env.metadata with
  | error e => rw [hm] at h; exact absurd h (by simp)
  | ok obj =>
    rw [hm] at h
    dsimp only at h
    cases h
    exact transferSingleFile_success_blobID env.transfer _ hs

/-- Witness: the concrete successful transfer has `success = true` and
its blob identifier is non-empty. -/
theorem c1_success_implies_nonempty_blobID_witness :
    (transferSingleFile c1SuccessEnv c1Job).Success = true ∧
    (transferSingleFile c1SuccessEnv c1Job).BlobID ≠ "" :=
  ⟨by rfl, c1_success_implies_nonempty_blobID.1 c1SuccessEnv c1Job (by rfl)⟩

/-- C1 counterexample: the dry-run single-item transfer returns a
TransferResult with `success = true` and an empty blob identifier, so
the claim as stated (which includes dry runs) fails. -/
theorem c1_dry_run_counterexample :
    (TransferSingle c1DryEnv true "data/a.csv" 5).map
      (fun r => (r.Success, r.BlobID)) = .ok (true, "") := by
  rfl

/-! ### C2 : batch drain counters -/

/-- Folding the worker update over any completion order adds one to the
processed counter per job, appends one result per job, and adds one to
the failed counter per unsuccessful result. -/
theorem drainFold_spec (l : List (TransferJob × TransferEnv)) (p : BatchCounters) :
    (l.foldl batchStep p).ProcessedFiles = p.ProcessedFiles + l.length ∧
    (l.foldl batchStep p).Results
      = p.Results ++ l.map (fun je => transferSingleFile je.2 je.1) ∧
    (l.foldl batchStep p).FailedFiles
      = p.FailedFiles
        + ((l.map (fun je => transferSingleFile je.2 je.1)).countP (fun r => !r.Success) : Int) := by
  induction l generalizing p with
  | nil => simp
  | cons je rest ih =>
    obtain ⟨ih1, ih2, ih3⟩ := ih (batchStep p je)
    refine ⟨?_, ?_, ?_⟩
    · rw [List.foldl_cons, ih1]
      simp [batchStep]
      omega
    · rw [List.foldl_cons, ih2]
      simp [batchStep]
    · rw [List.foldl_cons, ih3]
      simp only [batchStep, List.map_cons, List.countP_cons]
      cases hr : (transferSingleFile je.2 je.1).Success <;> simp [hr] <;> push_cast <;> omega

/-- C2: after the batch drains — all workers have exited, every
completed job having applied its counter updates in some interleaved
order — the processed counter equals the number of results, the failed
counter counts the unsuccessful results, and processed = successes +
failures, for every concurrency setting from 1 to 10 and every
assignment of the jobs to that many workers. -/
theorem c2_drain_counters (concurrency : Nat)
    (hc1 : 1 ≤ concurrency) (hc10 : concurrency ≤ 10)
    (workers : List (List (TransferJob × TransferEnv)))
    (order : List (TransferJob × TransferEnv))
    (hw : workers.length = concurrency)
    (hperm : order.Perm workers.join) :
    (drainBatch order).ProcessedFiles = ((drainBatch order).Results.length : Int) ∧
    (drainBatch order).FailedFiles
      = (((drainBatch order).Results.countP (fun r => !r.Success)) : Int) ∧
    (drainBatch order).ProcessedFiles
      = (((drainBatch order).Results.countP (fun r => r.Success)) : Int)
        + (drainBatch order).FailedFiles := by
  obtain ⟨h1, h2, h3⟩ := drainFold_spec order ⟨0, 0, 0, []⟩
  unfold drainBatch
  rw [h1, h2, h3]
  simp only [List.nil_append]
  refine ⟨by simp, by simp, ?_⟩
  have hlen : (order.map (fun je => transferSingleFile je.2 je.1)).length
      = (order.map (fun je => transferSingleFile je.2 je.1)).countP (fun r => r.Success)
        + (order.map (fun je => transferSingleFile je.2 je.1)).countP (fun r => !r.Success) := by
    simpa using List.length_eq_countP_add_countP (fun r : TransferResult => r.Success)
      (order.map (fun je => transferSingleFile je.2 je.1))
  simp only [List.length_map] at hlen
  push_cast
  omega

/-- Environment of a transfer whose upload fails with a transport
error. -/
def c2FailEnv : TransferEnv :=
  { download := .ok ([1], 1), store := .netErr "boom" }

/-- Environment of a transfer that succeeds against a legacy-encoded
publisher response. -/
def c2OkEnv : TransferEnv :=
  { download := .ok ([1, 2, 3], 3)
    store := .resp 201 (Json.obj [("newlyCreated", Json.obj
      [("blobObject", Json.obj [("blobId", Json.str "By"),
        ("storage", Json.obj [("storage_end_epoch", Json.num 9)])])])]) }

/-- A job used by the C2 witness. -/
def c2JobA : TransferJob :=
  { Bucket := "b", Key := "x/a.bin", Size := 3, TargetName := "a.bin"
    Epochs := 2, EncryptionConfig := none }

/-- Another job used by the C2 witness. -/
def c2JobB : TransferJob :=
  { Bucket := "b", Key := "x/b.bin", Size := 1, TargetName := "b.bin"
    Epochs := 2, EncryptionConfig := none }

/-- Witness: a two-worker batch over one succeeding and one failing job
satisfies the drained-counter identities. -/
theorem c2_drain_counters_witness :
    1 ≤ 2 ∧ 2 ≤ 10 ∧ [[(c2JobA, c2OkEnv)], [(c2JobB, c2FailEnv)]].length = 2 ∧
    ((drainBatch [(c2JobA, c2OkEnv), (c2JobB, c2FailEnv)]).ProcessedFiles
        = ((drainBatch [(c2JobA, c2OkEnv), (c2JobB, c2FailEnv)]).Results.length : Int) ∧
      (drainBatch [(c2JobA, c2OkEnv), (c2JobB, c2FailEnv)]).FailedFiles
        = (((drainBatch [(c2JobA, c2OkEnv), (c2JobB, c2FailEnv)]).Results.countP
            (fun r => !r.Success)) : Int) ∧
      (drainBatch [(c2JobA, c2OkEnv), (c2JobB, c2FailEnv)]).ProcessedFiles
        = (((drainBatch [(c2JobA, c2OkEnv), (c2JobB, c2FailEnv)]).Results.countP
            (fun r => r.Success)) : Int)
          + (drainBatch [(c2JobA, c2OkEnv), (c2JobB, c2FailEnv)]).FailedFiles) :=
  ⟨by norm_num, by norm_num, by rfl,
    c2_drain_counters 2 (by norm_num) (by norm_num)
      [[(c2JobA, c2OkEnv)], [(c2JobB, c2FailEnv)]]
      [(c2JobA, c2OkEnv), (c2JobB, c2FailEnv)] (by rfl) (List.Perm.refl _)⟩

/-! ### C3 : the already-certified concrete scenario -/

/-- JSON value of the C3 scenario body
`("alreadyCertified": ("blobId": "B1", "storage": ("end_epoch": 50)))`. -/
def c3Body : Json :=
  Json.obj [("alreadyCertified", Json.obj
    [("blobId", Json.str "B1"),
     ("storage", Json.obj [("end_epoch", Json.num 50)])])]

/-- Variant of the C3 body whose storage object uses the recognized key
`endEpoch` instead of `end_epoch`. -/
def c3BodyRecognized : Json :=
  Json.obj [("alreadyCertified", Json.obj
    [("blobId", Json.str "B1"),
     ("storage", Json.obj [("endEpoch", Json.num 50)])])]

/-- C3 counterexample: the scenario body decodes with end epoch 0, not
50 — the storage key `end_epoch` matches neither of the two recognized
tags (`endEpoch`, `storage_end_epoch`), not even case-insensitively. -/
theorem c3_end_epoch_counterexample :
    decodeStoreResponse c3Body 7 =
      .ok { BlobID := "B1", EndEpoch := some 0, RegisteredEpoch := none,
            Cost := 0, Size := 7, AlreadyCertified := true, SuiObjectID := "" } ∧
    some (0 : Int) ≠ some 50 := ⟨rfl, by simp⟩

/-- C3 (amended): the scenario body yields blob identifier "B1" and
`alreadyExisted = true`, but expiry unit 0, because `end_epoch` is not a
recognized storage key; spelling the key `endEpoch` yields expiry 50. -/
theorem c3_end_epoch_amended :
    decodeStoreResponse c3Body 7 =
      .ok { BlobID := "B1", EndEpoch := some 0, RegisteredEpoch := none,
            Cost := 0, Size := 7, AlreadyCertified := true, SuiObjectID := "" } ∧
    decodeStoreResponse c3BodyRecognized 7 =
      .ok { BlobID := "B1", EndEpoch := some 50, RegisteredEpoch := none,
            Cost := 0, Size := 7, AlreadyCertified := true, SuiObjectID := "" } := ⟨rfl, rfl⟩

/-! ### C4 : size-resolution order -/

/-- Modern outcome payload carrying both a storage metadata size `s` and
an explicit top-level payload size `z`. -/
def c4Both (s z : Int) : Json :=
  Json.obj [("blobId", Json.str "X"), ("size", Json.num z),
    ("storage", Json.obj [("storage_size", Json.num s)])]

/-- Modern outcome payload carrying only the explicit top-level size. -/
def c4PayloadOnly (z : Int) : Json :=
  Json.obj [("blobId", Json.str "X"), ("size", Json.num z)]

/-- Modern outcome payload carrying no size information at all. -/
def c4Neither : Json := Json.obj [("blobId", Json.str "X")]

/-- C4 counterexample: with explicit payload size 7 and storage metadata
size 9, the decoded receipt size is 9 — the storage metadata field wins,
contradicting the claimed order (explicit payload size first). -/
theorem c4_size_order_counterexample :
    (parseNewlyCreated (c4Both 9 7) 3).map (fun r => r.Size) = .ok 9 ∧
    (9 : Int) ≠ 7 := ⟨rfl, by norm_num⟩

/-- C4 (amended): the receipt size is resolved storage metadata size
first, then the explicit payload size, then the bytes actually sent as
fallback, taking the first positive value — in both the newly-created
and the already-certified decoders. -/
theorem c4_size_order_amended (s z fb : Int) (hs : 0 < s) (hz : 0 < z) :
    (parseNewlyCreated (c4Both s z) fb).map (fun r => r.Size) = .ok s ∧
    (parseNewlyCreated (c4PayloadOnly z) fb).map (fun r => r.Size) = .ok z ∧
    (parseNewlyCreated c4Neither fb).map (fun r => r.Size) = .ok fb ∧
    (parseAlreadyCertified (c4Both s z) fb).map (fun r => r.Size) = .ok s := by
  refine ⟨?_, ?_, ?_, ?_⟩
  · have h1 : parseNewlyCreated (c4Both s z) fb
        = .ok { BlobID := "X", EndEpoch := some 0, RegisteredEpoch := none, Cost := 0,
                Size := resolveSize fb [walrusStoragePayload.size ⟨0, 0, s, 0⟩, z],
                AlreadyCertified := false, SuiObjectID := "" } := rfl
    rw [h1]
    simp [walrusStoragePayload.size, resolveSize, Except.map, hs.ne', hs]
  · have h1 : parseNewlyCreated (c4PayloadOnly z) fb
        = .ok { BlobID := "X", EndEpoch := some 0, RegisteredEpoch := none, Cost := 0,
                Size := resolveSize fb [walrusStoragePayload.size ⟨0, 0, 0, 0⟩, z],
                AlreadyCertified := false, SuiObjectID := "" } := rfl
    rw [h1]
    simp [walrusStoragePayload.size, resolveSize, Except.map, hz.ne', hz]
  · have h1 : parseNewlyCreated c4Neither fb
        = .ok { BlobID := "X", EndEpoch := some 0, RegisteredEpoch := none, Cost := 0,
                Size := resolveSize fb [walrusStoragePayload.size ⟨0, 0, 0, 0⟩, 0],
                AlreadyCertified := false, SuiObjectID := "" } := rfl
    rw [h1]
    simp [walrusStoragePayload.size, resolveSize, Except.map]
  · have h1 : parseAlreadyCertified (c4Both s z) fb
        = .ok { BlobID := "X", EndEpoch := some 0, RegisteredEpoch := none, Cost := 0,
                Size := resolveSize fb [walrusStoragePayload.size ⟨0, 0, s, 0⟩, z],
                AlreadyCertified := true, SuiObjectID := "" } := rfl
    rw [h1]
    simp [walrusStoragePayload.size, resolveSize, Except.map, hs.ne', hs]

/-- Witness of the amended size-resolution order at concrete sizes. -/
theorem c4_size_order_amended_witness :
    (0 : Int) < 9 ∧ (0 : Int) < 7 ∧
    (parseNewlyCreated (c4Both 9 7) 3).map (fun r => r.Size) = .ok 9 :=
  ⟨by norm_num, by norm_num, (c4_size_order_amended 9 7 3 (by norm_num) (by norm_num)).1⟩

/-! ### C5 : small-size flat cost -/

/-- C5 counterexample: the estimator used for per-item accounting and
previews (`EstimateWalrusCost`, used for `TransferResult.EstimatedCost`,
the dry-run preview and `EstimateTransferCost`) does not ignore the raw
size below the 10 MiB threshold: a 1 KB input and a 1 MB input yield
different costs at the same duration. -/
theorem c5_accounting_estimator_counterexample :
    EstimateWalrusCost 1024 1 ≠ EstimateWalrusCost 1048576 1 ∧
    (1024 : Int) < 10 * 1024 * 1024 ∧ (1048576 : Int) < 10 * 1024 * 1024 := by
  refine ⟨?_, by norm_num, by norm_num⟩
  have h1 : EstimateWalrusCostFROST 1024 1 = 715000 := by
    norm_num [EstimateWalrusCostFROST, wrap64, Int.tdiv]
  have h2 : EstimateWalrusCostFROST 1048576 1 = 759000 := by
    norm_num [EstimateWalrusCostFROST, wrap64, Int.tdiv]
  unfold EstimateWalrusCost
  rw [h1, h2]
  norm_num

/-- C5 (amended): the documented small-size special case lives in
`EstimateStorageCost` (`backend/client.go`), not in the per-item
accounting estimator: below the 10 MiB threshold `EstimateStorageCost`
returns the same cost for any two sizes at any fixed duration. -/
theorem c5_small_size_flat_cost (s1 s2 e : Int)
    (h1 : 0 ≤ s1) (h2 : s1 < 10 * 1024 * 1024)
    (h3 : 0 ≤ s2) (h4 : s2 < 10 * 1024 * 1024) :
    EstimateStorageCost s1 e = EstimateStorageCost s2 e := by
  unfold EstimateStorageCost
  dsimp only
  rw [if_pos h2, if_pos h4]

/-- Witness: 1 KB and 1 MB are both under the threshold and receive the
same `EstimateStorageCost` at duration 5. -/
theorem c5_small_size_flat_cost_witness :
    (0 : Int) ≤ 1024 ∧ (1024 : Int) < 10 * 1024 * 1024 ∧
    (0 : Int) ≤ 1048576 ∧ (1048576 : Int) < 10 * 1024 * 1024 ∧
    EstimateStorageCost 1024 5 = EstimateStorageCost 1048576 5 :=
  ⟨by norm_num, by norm_num, by norm_num, by norm_num,
    c5_small_size_flat_cost 1024 1048576 5 (by norm_num) (by norm_num)
      (by norm_num) (by norm_num)⟩

/-! ### C6 : retrieval retry behaviour -/

/-- Error message the loop records before retrying a transient
outcome. -/
def lastErrOf : FetchOutcome → String
  | .netErr msg => msg
  | .resp status _ => "status " ++ toString status

/-- Value the loop returns at once for a non-transient outcome. -/
def finalResultOf : FetchOutcome → Except String (List Nat)
  | .netErr msg => .error ("retrieving blob: " ++ msg)
  | .resp status body =>
    if status ≠ 200 then .error ("retrieval failed with status " ++ toString status)
    else .ok body

/-- A transient outcome at attempt `i` makes the loop sleep (if `i > 0`),
record the error and move to attempt `i + 1`. -/
theorem RetrieveLoop_step_transient (attempts : Nat → FetchOutcome) (r i : Nat)
    (le : Option String) (sl : List Nat) (h : isTransientOutcome (attempts i) = true) :
    RetrieveLoop attempts (r + 1) i le sl
      = RetrieveLoop attempts r (i + 1) (some (lastErrOf (attempts i)))
          (if i > 0 then sl ++ [i * 2] else sl) := by
  cases ha : attempts i with
  | netErr msg =>
    rw [ha, isTransientOutcome] at h
    simp only [RetrieveLoop]
    rw [ha]
    dsimp only
    rw [if_pos h]
    rfl
  | resp status body =>
    rw [ha, isTransientOutcome] at h
    simp only [RetrieveLoop]
    rw [ha]
    dsimp only
    rw [if_pos h]
    rfl

/-- A non-transient outcome at attempt `i` ends the loop at once with
`finalResultOf`, after `i + 1` attempts in total. -/
theorem RetrieveLoop_step_final (attempts : Nat → FetchOutcome) (r i : Nat)
    (le : Option String) (sl : List Nat) (h : isTransientOutcome (attempts i) = false) :
    RetrieveLoop attempts (r + 1) i le sl
      = ⟨finalResultOf (attempts i), if i > 0 then sl ++ [i * 2] else sl, i + 1⟩ := by
  cases ha : attempts i with
  | netErr msg =>
    rw [ha, isTransientOutcome] at h
    simp only [RetrieveLoop]
    rw [ha]
    dsimp only
    rw [if_neg (by simp [h])]
    rfl
  | resp status body =>
    rw [ha, isTransientOutcome] at h
    simp only [RetrieveLoop]
    rw [ha]
    dsimp only
    rw [if_neg (by simp_all)]
    simp only [finalResultOf]
    split <;> rfl

/-- Attempt outcomes of the C6 concrete scenario: two connection resets,
then a 200 with the blob bytes. -/
def c6ScenarioAttempts : Nat → FetchOutcome := fun i =>
  if i < 2 then FetchOutcome.netErr "read tcp 10.0.0.1:443: connection reset by peer"
  else FetchOutcome.resp 200 [1, 2, 3]

/-- C6: the retrieval loop makes at most 3 attempts; the sleep before
retry number `a` (attempt index `a`, zero-based) is `a * 2` seconds; an
attempt is followed by another only when its outcome was transient — a
retryable transport error or HTTP 429/503 — and a non-transient outcome
at attempt `i` ends the call at once with that attempt's value; the
concrete scenario of two connection resets followed by a 200 returns
the fetched bytes with no error after sleeps of 2 s and 4 s. -/
theorem c6_retrieve_retry (attempts : Nat → FetchOutcome) :
    (RetrieveBlob attempts).attemptsMade ≤ 3 ∧
    (RetrieveBlob attempts).sleeps
      = ((List.range (RetrieveBlob attempts).attemptsMade).drop 1).map (fun a => a * 2) ∧
    (∀ i, i + 1 < (RetrieveBlob attempts).attemptsMade →
      isTransientOutcome (attempts i) = true) ∧
    (∀ i, i < (RetrieveBlob attempts).attemptsMade →
      isTransientOutcome (attempts i) = false →
      (RetrieveBlob attempts).attemptsMade = i + 1 ∧
      (RetrieveBlob attempts).result = finalResultOf (attempts i)) ∧
    RetrieveBlob c6ScenarioAttempts = ⟨.ok [1, 2, 3], [2, 4], 3⟩ := by
  by_cases h0 : isTransientOutcome (attempts 0) = true
  case neg =>
    have hf0 : isTransientOutcome (attempts 0) = false := by simpa using h0
    have hRB : RetrieveBlob attempts = ⟨finalResultOf (attempts 0), [], 1⟩ := by
      unfold RetrieveBlob
      rw [RetrieveLoop_step_final attempts 2 0 none [] hf0]
      rfl
    have hm : (RetrieveBlob attempts).attemptsMade = 1 := by rw [hRB]
    have hsl : (RetrieveBlob attempts).sleeps = [] := by rw [hRB]
    have hres : (RetrieveBlob attempts).result = finalResultOf (attempts 0) := by rw [hRB]
    refine ⟨by omega, by rw [hsl, hm]; rfl, ?_, ?_, by rfl⟩
    · intro i hi
      rw [hm] at hi
      exact absurd hi (by omega)
    · intro i hi hfi
      rw [hm] at hi
      obtain rfl : i = 0 := by omega
      exact ⟨by rw [hm], by rw [hres]⟩
  case pos =>
    by_cases h1 : isTransientOutcome (attempts 1) = true
    case neg =>
      have hf1 : isTransientOutcome (attempts 1) = false := by simpa using h1
      have hRB : RetrieveBlob attempts = ⟨finalResultOf (attempts 1), [2], 2⟩ := by
        unfold RetrieveBlob
        rw [RetrieveLoop_step_transient attempts 2 0 none [] h0]
        rw [RetrieveLoop_step_final attempts 1 1 _ _ hf1]
        rfl
      have hm : (RetrieveBlob attempts).attemptsMade = 2 := by rw [hRB]
      have hsl : (RetrieveBlob attempts).sleeps = [2] := by rw [hRB]
      have hres : (RetrieveBlob attempts).result = finalResultOf (attempts 1) := by rw [hRB]
      refine ⟨by omega, by rw [hsl, hm]; rfl, ?_, ?_, by rfl⟩
      · intro i hi
        rw [hm] at hi
        obtain rfl : i = 0 := by omega
        exact h0
      · intro i hi hfi
        rw [hm] at hi
        have hcase : i = 0 ∨ i = 1 := by omega
        rcases hcase with rfl | rfl
        · rw [h0] at hfi
          exact absurd hfi (by simp)
        · exact ⟨by rw [hm], by rw [hres]⟩
    case pos =>
      by_cases h2 : isTransientOutcome (attempts 2) = true
      case neg =>
        have hf2 : isTransientOutcome (attempts 2) = false := by simpa using h2
        have hRB : RetrieveBlob attempts = ⟨finalResultOf (attempts 2), [2, 4], 3⟩ := by
          unfold RetrieveBlob
          rw [RetrieveLoop_step_transient attempts 2 0 none [] h0]
          rw [RetrieveLoop_step_transient attempts 1 1 _ _ h1]
          rw [RetrieveLoop_step_final attempts 0 2 _ _ hf2]
          rfl
        have hm : (RetrieveBlob attempts).attemptsMade = 3 := by rw [hRB]
        have hsl : (RetrieveBlob attempts).sleeps = [2, 4] := by rw [hRB]
        have hres : (RetrieveBlob attempts).result = finalResultOf (attempts 2) := by rw [hRB]
        refine ⟨by omega, by rw [hsl, hm]; rfl, ?_, ?_, by rfl⟩
        · intro i hi
          rw [hm] at hi
          have hcase : i = 0 ∨ i = 1 := by omega
          rcases hcase with rfl | rfl
          · exact h0
          · exact h1
        · intro i hi hfi
          rw [hm] at hi
          have hcase : i = 0 ∨ i = 1 ∨ i = 2 := by omega
          rcases hcase with rfl | rfl | rfl
          · rw [h0] at hfi
            exact absurd hfi (by simp)
          · rw [h1] at hfi
            exact absurd hfi (by simp)
          · exact ⟨by rw [hm], by rw [hres]⟩
      case pos =>
        have hRB : RetrieveBlob attempts
            = ⟨.error ("failed after 3 attempts: " ++ lastErrOf (attempts 2)), [2, 4], 3⟩ := by
          unfold RetrieveBlob
          rw [RetrieveLoop_step_transient attempts 2 0 none [] h0]
          rw [RetrieveLoop_step_transient attempts 1 1 _ _ h1]
          rw [RetrieveLoop_step_transient attempts 0 2 _ _ h2]
          rfl
        have hm : (RetrieveBlob attempts).attemptsMade = 3 := by rw [hRB]
        have hsl : (RetrieveBlob attempts).sleeps = [2, 4] := by rw [hRB]
        refine ⟨by omega, by rw [hsl, hm]; rfl, ?_, ?_, by rfl⟩
        · intro i hi
          rw [hm] at hi
          have hcase : i = 0 ∨ i = 1 := by omega
          rcases hcase with rfl | rfl
          · exact h0
          · exact h1
        · intro i hi hfi
          rw [hm] at hi
          have hcase : i = 0 ∨ i = 1 ∨ i = 2 := by omega
          rcases hcase with rfl | rfl | rfl
          · rw [h0] at hfi
            exact absurd hfi (by simp)
          · rw [h1] at hfi
            exact absurd hfi (by simp)
          · rw [h2] at hfi
            exact absurd hfi (by simp)

/-- Timeout attempts used by the C6 witness. -/
def c6TimeoutAttempts : Nat → FetchOutcome := fun _ =>
  FetchOutcome.netErr "dial tcp: i/o timeout"

/-- Witness: a retried attempt (three timeouts exhaust the retries) is
indeed classified transient by the loop. -/
theorem c6_retrieve_retry_witness :
    0 + 1 < (RetrieveBlob c6TimeoutAttempts).attemptsMade ∧
    isTransientOutcome (c6TimeoutAttempts 0) = true :=
  ⟨by decide, (c6_retrieve_retry c6TimeoutAttempts).2.2.1 0 (by decide)⟩

/-! ### C7 : include/exclude filter predicate -/

/-- C7 (amended): the filter predicate (a pure function in this
embedding, so determinism is definitional) rejects any object matched by
an exclude glob regardless of the include globs, and with an empty
include list it reduces to the size/date checks plus
"no exclude glob matches" — passing the size and date bounds is still
required for inclusion. -/
theorem c7_filter_predicate (obj : S3Object) (filter : S3TransferFilter) :
    ((filter.excludeGlobs.any fun pat => matchPattern obj.key pat) = true →
      shouldIncludeObject obj (some filter) = false) ∧
    (filter.includeGlobs = [] →
      shouldIncludeObject obj (some filter)
        = (sizeDateOk obj filter &&
            !(filter.excludeGlobs.any fun pat => matchPattern obj.key pat))) := by
  constructor
  · intro hex
    unfold shouldIncludeObject
    simp [hex]
  · intro hincl
    unfold shouldIncludeObject
    dsimp only
    rw [hincl]
    cases hsd : sizeDateOk obj filter <;>
      cases hex : filter.excludeGlobs.any fun pat => matchPattern obj.key pat <;>
        simp [hsd, hex]

/-- Object rejected by a minimum-size bound although nothing excludes
it. -/
def c7Obj : S3Object := { key := "a", size := 5, lastModified := 0, etag := "" }

/-- Filter with empty include and exclude lists but a positive minimum
size. -/
def c7Filter : S3TransferFilter :=
  { prefixStr := "", includeGlobs := [], excludeGlobs := []
    minSize := 10, maxSize := 0, modifiedAfter := none, modifiedBefore := none }

/-- C7 counterexample: with an empty include list, an object matched by
no exclude glob can still be rejected — the size/date checks run first,
so "every object not excluded is included" fails as stated. -/
theorem c7_min_size_counterexample :
    shouldIncludeObject c7Obj (some c7Filter) = false ∧
    c7Filter.excludeGlobs = [] ∧ c7Filter.includeGlobs = [] :=
  ⟨rfl, rfl, rfl⟩

/-- Object matched by the witness's exclude glob. -/
def c7ExObj : S3Object := { key := "data/b.tmp", size := 1, lastModified := 0, etag := "" }

/-- Filter excluding `*.tmp` while including everything. -/
def c7ExFilter : S3TransferFilter :=
  { prefixStr := "data/", includeGlobs := ["*.csv", "*.tmp"], excludeGlobs := ["*.tmp"]
    minSize := 0, maxSize := 0, modifiedAfter := none, modifiedBefore := none }

/-- Witness: `data/b.tmp` matches the exclude glob `*.tmp` and is
rejected even though an include glob also matches it. -/
theorem c7_filter_predicate_witness :
    (c7ExFilter.excludeGlobs.any fun pat => matchPattern c7ExObj.key pat) = true ∧
    shouldIncludeObject c7ExObj (some c7ExFilter) = false :=
  ⟨by rfl, (c7_filter_predicate c7ExObj c7ExFilter).1 (by rfl)⟩

/-! ### C8 : reloading the local index -/

/-- C8 counterexample: a malformed backing document makes `LoadIndex`
return the unmarshal error — it is not treated like a missing document,
which yields an empty index without error. -/
theorem c8_malformed_document_counterexample :
    (LoadIndex emptyIndex (ReadResult.ok "not json")).isOk = false ∧
    LoadIndex emptyIndex ReadResult.notExist = .ok emptyIndex :=
  ⟨rfl, rfl⟩

/-- C8 (amended): a missing backing document reloads as an empty index
with no error, but a malformed document (text that does not parse as
JSON) makes the reload return the unmarshal error; the function performs
no writes, so the backing document is untouched either way. -/
theorem c8_load_index (prev : SimpleFileIndex) :
    LoadIndex prev ReadResult.notExist = .ok emptyIndex ∧
    (∀ s : String, parseJson s = none →
      LoadIndex prev (ReadResult.ok s) = .error "invalid JSON document") := by
  refine ⟨rfl, ?_⟩
  intro s hp
  unfold LoadIndex
  dsimp only
  rw [hp]

/-- Witness: the document text `not json` is malformed and makes the
reload fail. -/
theorem c8_load_index_witness :
    parseJson "not json" = none ∧
    LoadIndex emptyIndex (ReadResult.ok "not json") = .error "invalid JSON document" :=
  ⟨rfl, (c8_load_index emptyIndex).2 "not json" rfl⟩

/-! ### C9 : wildcard-free patterns match by equality -/

/-- C9: a pattern containing no `*` matches a text exactly when the two
are equal — never as a substring, prefix or suffix. -/
theorem c9_no_star_exact_match (text pat : String)
    (h : hasSubstr pat.toList ['*'] = false) :
    (matchPattern text pat = true ↔ text = pat) := by
  unfold matchPattern matchPatternL
  simp only [h, Bool.false_eq_true, if_false]
  rw [decide_eq_true_eq]
  exact ⟨fun hl => String.ext hl, fun he => by rw [he]⟩

/-- Witness: the star-free pattern `data/a.csv` matches exactly its own
text. -/
theorem c9_no_star_exact_match_witness :
    hasSubstr "data/a.csv".toList ['*'] = false ∧
    matchPattern "data/a.csv" "data/a.csv" = true :=
  ⟨by decide, (c9_no_star_exact_match "data/a.csv" "data/a.csv" (by decide)).mpr rfl⟩

/-! ### C10 : positivity of the estimated cost -/

/-- Values already in the signed 64-bit range are fixed points of the
two's-complement reduction. -/
theorem wrap64_eq_self {x : Int} (h1 : -(2 ^ 63) ≤ x) (h2 : x < 2 ^ 63) :
    wrap64 x = x := by
  unfold wrap64
  have hb : (2 : Int) ^ 64 = 2 ^ 63 + 2 ^ 63 := by norm_num
  rw [Int.emod_eq_of_lt (by linarith) (by rw [hb]; linarith)]
  ring

/-- C10 counterexample: at the int64-valid size 6917529027641081856
(3 · 2^61 bytes) and one epoch, the 5x expansion overflows int64 and the
estimate is negative, so the cost is not strictly positive for every
nonnegative size. -/
theorem c10_overflow_counterexample :
    (0 : Int) ≤ 6917529027641081856 ∧ (1 : Int) ≤ 1 ∧
    EstimateWalrusCost 6917529027641081856 1 < 0 := by
  refine ⟨by norm_num, le_refl 1, ?_⟩
  have h : EstimateWalrusCostFROST 6917529027641081856 1 = -24189255810357000 := by decide
  unfold EstimateWalrusCost
  rw [h]
  norm_num

/-- C10 (amended): for every size and epoch count in the range where the
int64 arithmetic cannot overflow (0 ≤ size ≤ 2^50 bytes, 1 ≤ epochs ≤
32768), the estimated cost is strictly positive: the 64 MiB metadata
overhead forces at least 64 chargeable MiB, so even a zero-byte input is
charged. -/
theorem c10_positive_cost (s e : Int) (hs0 : 0 ≤ s) (hs1 : s ≤ 2 ^ 50)
    (he1 : 1 ≤ e) (he2 : e ≤ 32768) : 0 < EstimateWalrusCost s e := by
  have h50 : (2 : Int) ^ 50 = 1125899906842624 := by norm_num
  have h63 : (2 : Int) ^ 63 = 9223372036854775808 := by norm_num
  have hs5 : 0 ≤ s * 5 := by linarith
  have hs5u : s * 5 ≤ 5629499534213120 := by linarith
  have hw1 : wrap64 (s * 5) = s * 5 :=
    wrap64_eq_self (by linarith) (by linarith)
  have hw2 : wrap64 (s * 5 + 64 * 1024 * 1024) = s * 5 + 64 * 1024 * 1024 :=
    wrap64_eq_self (by linarith) (by linarith)
  have hw3 : wrap64 (s * 5 + 64 * 1024 * 1024 + 1048575)
      = s * 5 + 64 * 1024 * 1024 + 1048575 :=
    wrap64_eq_self (by linarith) (by linarith)
  have heq : EstimateWalrusCostFROST s e
      = wrap64 (wrap64 (Int.tdiv (wrap64 (wrap64 (wrap64 (s * 5) + 64 * 1024 * 1024)
          + 1048575)) 1048576 * Int.tdiv 55000 5) * e) := rfl
  rw [hw1] at heq
  rw [hw2] at heq
  rw [hw3] at heq
  have ht : Int.tdiv (55000 : Int) 5 = 11000 := by decide
  rw [ht] at heq
  have htd : Int.tdiv (s * 5 + 64 * 1024 * 1024 + 1048575) 1048576
      = (s * 5 + 64 * 1024 * 1024 + 1048575) / 1048576 :=
    Int.tdiv_eq_ediv (by linarith) (by norm_num)
  rw [htd] at heq
  have hmlb : (64 : Int) ≤ (s * 5 + 64 * 1024 * 1024 + 1048575) / 1048576 := by
    rw [Int.le_ediv_iff_mul_le (by norm_num)]
    linarith
  have hmub : (s * 5 + 64 * 1024 * 1024 + 1048575) / 1048576 ≤ 5368709184 := by
    have hnum : s * 5 + 64 * 1024 * 1024 + 1048575 ≤ 5629499602370559 := by linarith
    have hdiv : (5629499602370559 : Int) / 1048576 = 5368709184 := by decide
    calc (s * 5 + 64 * 1024 * 1024 + 1048575) / 1048576
        ≤ (5629499602370559 : Int) / 1048576 := Int.ediv_le_ediv (by norm_num) hnum
      _ = 5368709184 := hdiv
  set m : Int := (s * 5 + 64 * 1024 * 1024 + 1048575) / 1048576 with hmdef
  have hd_pos : (0 : Int) < m * 11000 := by nlinarith
  have hd_ub : m * 11000 ≤ 59055801024000 := by nlinarith
  have hw4 : wrap64 (m * 11000) = m * 11000 :=
    wrap64_eq_self (by linarith) (by linarith)
  rw [hw4] at heq
  have hprod_pos : (0 : Int) < m * 11000 * e := by nlinarith
  have hprod_ub : m * 11000 * e ≤ 59055801024000 * 32768 := by nlinarith
  have hw5 : wrap64 (m * 11000 * e) = m * 11000 * e :=
    wrap64_eq_self (by linarith) (by norm_num at hprod_ub ⊢; linarith)
  rw [hw5] at heq
  have hfrost : 0 < EstimateWalrusCostFROST s e := by rw [heq]; exact hprod_pos
  unfold EstimateWalrusCost
  have hq : (0 : ℚ) < (EstimateWalrusCostFROST s e : ℚ) := by exact_mod_cast hfrost
  positivity

/-- Witness: a zero-byte input at one epoch is charged a strictly
positive cost. -/
theorem c10_positive_cost_witness :
    (0 : Int) ≤ 0 ∧ (0 : Int) ≤ 2 ^ 50 ∧ (1 : Int) ≤ 1 ∧ (1 : Int) ≤ 32768 ∧
    0 < EstimateWalrusCost 0 1 :=
  ⟨le_refl 0, by norm_num, le_refl 1, by norm_num,
    c10_positive_cost 0 1 (le_refl 0) (by norm_num) (le_refl 1) (by norm_num)⟩

end WalrusCLI
